import Mathlib

/-!
# VoxEngine: the model-import pipeline of `src/model.cpp`

A shallow embedding of `Model::loadModel`, `Model::processNode`,
`Model::processMesh`, `Model::loadMaterialTextures`, `TextureFromFile`,
`TextureFromEmbedded` and `Model::Draw`.

* `std::string` and C strings are Lean `String`s (a C string has no interior NUL).
* `unsigned int` values are `Nat`, `int` values are `Int`; the one cast the
  code makes, `(int)scene->mNumTextures`, is `castInt`.
* A `float` is kept as its bit pattern: the pipeline copies floats and never
  computes with them.
* A C array that the code reads at an index without testing the index is an
  index function; an array whose count the code loops over is a `List`.
* A pointer of a mesh record that the importer may leave null is an `Option`;
  a function that dereferences it untested returns `none` there (the crash),
  and so does every caller.
* The importer, the image decoder and the graphics API are external; they are
  the fields of `Env`, and every call made to them is appended to the trace of
  the `World`.
-/

namespace VoxEngine

/-! ## Records of the importer (assimp), as `model.cpp` reads them -/

/-- The bit pattern of a `float`; `0` is `0.0f`. -/
abbrev float := Nat

/-- An `aiVector3D`. -/
structure aiVector3D where
  x : float
  y : float
  z : float
  deriving DecidableEq, Repr

/-- An `aiFace`: `mIndices[0 .. mNumIndices)`. -/
structure aiFace where
  mIndices : List Nat
  deriving DecidableEq, Repr

/-- An `aiMesh`. The importer always fills `mVertices`; `mNormals` and
`mTextureCoords[0]` are null (`none`) when the asset carries no normals or no
UV channel, and the importer is not asked to generate them. -/
structure aiMesh where
  mNumVertices : Nat
  mVertices : Nat → aiVector3D
  mNormals : Option (Nat → aiVector3D)
  mTextureCoords0 : Option (Nat → aiVector3D)
  mFaces : List aiFace
  mMaterialIndex : Nat

/-- The texture categories of the importer (`aiTextureType`). -/
inductive aiTextureType where
  | aiTextureType_NONE
  | aiTextureType_DIFFUSE
  | aiTextureType_SPECULAR
  | aiTextureType_AMBIENT
  | aiTextureType_EMISSIVE
  | aiTextureType_HEIGHT
  | aiTextureType_NORMALS
  | aiTextureType_SHININESS
  | aiTextureType_OPACITY
  | aiTextureType_DISPLACEMENT
  | aiTextureType_LIGHTMAP
  | aiTextureType_REFLECTION
  | aiTextureType_UNKNOWN
  deriving DecidableEq, Repr

open aiTextureType

/-- An `aiMaterial`: for each category the identifiers it binds, in binding
order. `GetTextureCount(type)` is the length of `bound type` and
`GetTexture(type, i, &str)` stores the `i`-th identifier in `str`. -/
structure aiMaterial where
  bound : aiTextureType → List String

/-- An `aiTexture` of the embedded-texture table. -/
structure aiTexture where
  mWidth : Nat
  mHeight : Nat
  pcData : List Nat
  deriving DecidableEq, Repr

/-- An `aiNode`: the mesh references `mMeshes[0 .. mNumMeshes)` and the children
`mChildren[0 .. mNumChildren)`. -/
inductive aiNode where
  | mk (mMeshes : List Nat) (mChildren : List aiNode) : aiNode

/-- The mesh references of a node. -/
def aiNode.mMeshes : aiNode → List Nat
  | .mk ms _ => ms

/-- The children of a node. -/
def aiNode.mChildren : aiNode → List aiNode
  | .mk _ cs => cs

/-- An `aiScene`. `mMeshes` and `mMaterials` are read at an index taken from the
scene itself; `mTextures` is read at an `int` computed from a texture
identifier, so it is a function of a signed offset and `mNumTextures` is the
declared size of the table. -/
structure aiScene where
  mFlags : Nat
  mRootNode : Option aiNode
  mMeshes : Nat → aiMesh
  mMaterials : Nat → aiMaterial
  mNumTextures : Nat
  mTextures : Int → aiTexture

/-! ## Records of the renderer -/

/-- A `glm::vec3`. -/
structure vec3 where
  x : float
  y : float
  z : float
  deriving DecidableEq, Repr

/-- A `glm::vec2`. -/
structure vec2 where
  x : float
  y : float
  deriving DecidableEq, Repr

/-- Modelled from the spec: `mesh.hpp` is not among the sources; a Vertex is a
position (3 floats), a normal (3 floats) and a texture coordinate (2 floats),
under the field names `model.cpp` assigns to. -/
structure Vertex where
  Position : vec3
  Normal : vec3
  TexCoords : vec2
  deriving DecidableEq, Repr

/-- Modelled from the spec: `mesh.hpp` is not among the sources; a TextureSlot is
a handle id, a kind tag and the source identifier, under the field names
`model.cpp` assigns to. -/
structure Texture where
  id : Nat
  type : String
  path : String
  deriving DecidableEq, Repr

/-- Modelled from the spec: `mesh.hpp` is not among the sources; a MeshBatch owns a
vertex buffer, an index buffer and an ordered sequence of texture slots, the
three arguments of the constructor call `Mesh(vertices, indices, textures)`. -/
structure Mesh where
  vertices : List Vertex
  indices : List Nat
  textures : List Texture
  deriving DecidableEq, Repr

/-! ## The external world -/

/-- The upload formats `model.cpp` chooses between. -/
inductive GLenum where
  | GL_RED
  | GL_RGB
  | GL_RGBA
  deriving DecidableEq, Repr

/-- What the decoder writes through `&width, &height, &nrComponents` when it
returns non-null data. -/
structure Image where
  width : Int
  height : Int
  nrComponents : Int
  deriving DecidableEq, Repr

/-- One call to an external collaborator, or one read of the embedded-texture
table. `call_TextureFromFile` marks an entry into `TextureFromFile`;
`read_mTextures index` is the read `scene->mTextures[index]`; the format of
`glTexImage2D` is `none` when the local `format` was never assigned. -/
inductive Event where
  | call_TextureFromFile (path : String)
  | glGenTextures (id : Nat)
  | stbi_load (filename : String)
  | read_mTextures (index : Int)
  | stbi_load_from_memory (aiTex : aiTexture)
  | glBindTexture (id : Nat)
  | glTexImage2D (format : Option GLenum) (width height : Int)
  | glGenerateMipmap
  | glTexParameteri (pname : String) (param : String)
  | stbi_image_free
  | cerr (message : String)
  | Mesh_Draw (mesh : Mesh)
  deriving DecidableEq, Repr

/-- The state outside the `Model`: how many texture names were generated, and
the calls made so far, oldest first. -/
structure World where
  generated : Nat
  trace : List Event
  deriving DecidableEq, Repr

/-- Append one event to the trace. -/
def World.log (w : World) (e : Event) : World :=
  { w with trace := w.trace ++ [e] }

/-- The external collaborators: the importer (`ReadFile`, `GetErrorString` and
the flag constant of its header), the image decoder (`none` is a null `data`)
and the name generator of the graphics API (the name handed out by the `k`-th
`glGenTextures`). -/
structure Env where
  ReadFile : String → Option aiScene
  GetErrorString : String
  AI_SCENE_FLAGS_INCOMPLETE : Nat
  stbi_load : String → Option Image
  stbi_load_from_memory : aiTexture → Option Image
  glGenTextures : Nat → Nat

/-! ## C and C++ library functions -/

/-- The comparison `strcmp` makes, character by character up to the end of
the shorter string: negative, zero or positive. -/
def strcmp.go : List Char → List Char → Int
  | [], [] => 0
  | [], _ :: _ => -1
  | _ :: _, [] => 1
  | a :: as, b :: bs => if a = b then strcmp.go as bs else if a.toNat < b.toNat then -1 else 1

/-- The function `strcmp` on C strings. -/
def strcmp (a b : String) : Int :=
  strcmp.go a.data b.data

/-- The function `isspace` in the C locale. -/
def isspace (c : Char) : Bool :=
  c = ' ' || c = '\t' || c = '\n' || c = '\x0b' || c = '\x0c' || c = '\r'

/-- The value of a run of leading decimal digits. -/
def digitsValue (s : List Char) : Nat :=
  (s.takeWhile Char.isDigit).foldl (fun acc c => acc * 10 + (c.toNat - '0'.toNat)) 0

/-- The value a 32-bit `int` holds of an integer: the integer modulo 2^32, in
`[-2^31, 2^31)`. -/
def wrapInt (v : Int) : Int :=
  (v + 2 ^ 31) % 2 ^ 32 - 2 ^ 31

/-- The number `atoi` reads: leading white space, an optional sign, then decimal
digits; what follows the digits is ignored and no digit at all gives 0. -/
def atoi.value (s : List Char) : Int :=
  match s.dropWhile isspace with
  | '-' :: r => - (digitsValue r : Int)
  | '+' :: r => (digitsValue r : Int)
  | r => (digitsValue r : Int)

/-- The function `atoi`, whose result is an `int`: the number read, as 32 bits
hold it. A number that fits is returned as it is; C leaves the result for a
larger one undefined, and it wraps as the conversion to `int` does. -/
def atoi (s : List Char) : Int :=
  wrapInt (atoi.value s)

/-- The cast `(int)` of an `unsigned int`: the value modulo 2^32, read as a
two's complement 32-bit integer. -/
def castInt (n : Nat) : Int :=
  if n % 2 ^ 32 < 2 ^ 31 then ((n % 2 ^ 32 : Nat) : Int) else ((n % 2 ^ 32 : Nat) : Int) - 2 ^ 32

/-- The constant `std::string::npos`. -/
def npos : Nat := 2 ^ 64 - 1

/-- The position of the last occurrence of `c` in a list of characters, counted
from the position `i` of its head. -/
def lastIndexFrom (c : Char) : List Char → Nat → Option Nat
  | [], _ => none
  | d :: ds, i =>
    match lastIndexFrom c ds (i + 1) with
    | some j => some j
    | none => if d = c then some i else none

/-- The function `std::string::find_last_of(char)`: the position of the last occurrence, or
`npos` when there is none. -/
def find_last_of (s : String) (c : Char) : Nat :=
  (lastIndexFrom c s.data 0).getD npos

/-- The function `std::string::substr(pos, count)` for `pos` within the string: the
characters `[pos, min(pos + count, size))`. -/
def substr (s : String) (pos count : Nat) : String :=
  String.mk ((s.data.drop pos).take count)

/-! ## `TextureFromEmbedded` and `TextureFromFile` -/

/-- Append several events to the trace. -/
def World.logs (w : World) (es : List Event) : World :=
  { w with trace := w.trace ++ es }

/-- The call `glGenTextures(1, &textureID)`: the next name, and the world that records it. -/
def genTexture (env : Env) (w : World) : Nat × World :=
  (env.glGenTextures w.generated,
    { generated := w.generated + 1,
      trace := w.trace ++ [Event.glGenTextures (env.glGenTextures w.generated)] })

/-- The `if (nrComponents == 1) ... else if (== 3) ... else if (== 4) ...` chain
that assigns the local `format`; `none` when no branch assigns it. -/
def formatOf (nrComponents : Int) : Option GLenum :=
  if nrComponents = 1 then some GLenum.GL_RED
  else if nrComponents = 3 then some GLenum.GL_RGB
  else if nrComponents = 4 then some GLenum.GL_RGBA
  else none

/-- The calls of the `if (data)` branch up to the last `glTexParameteri`. -/
def uploadCalls (textureID : Nat) (img : Image) : List Event :=
  [ Event.glBindTexture textureID,
    Event.glTexImage2D (formatOf img.nrComponents) img.width img.height,
    Event.glGenerateMipmap,
    Event.glTexParameteri "GL_TEXTURE_WRAP_S" "GL_REPEAT",
    Event.glTexParameteri "GL_TEXTURE_WRAP_T" "GL_REPEAT",
    Event.glTexParameteri "GL_TEXTURE_MIN_FILTER" "GL_LINEAR_MIPMAP_LINEAR",
    Event.glTexParameteri "GL_TEXTURE_MAG_FILTER" "GL_LINEAR" ]

/-- The function `TextureFromEmbedded(aiTex)`: returns the generated name whether or not data
was obtained. -/
def TextureFromEmbedded (env : Env) (aiTex : aiTexture) (w : World) : Nat × World :=
  let (textureID, w1) := genTexture env w
  let (data, w2) :=
    if aiTex.mHeight = 0 then
      (env.stbi_load_from_memory aiTex, w1.log (Event.stbi_load_from_memory aiTex))
    else
      (some { width := (aiTex.mWidth : Int), height := (aiTex.mHeight : Int), nrComponents := 4 },
        w1)
  match data with
  | some img =>
    let w3 := w2.logs (uploadCalls textureID img)
    (textureID, if aiTex.mHeight = 0 then w3.log Event.stbi_image_free else w3)
  | none => (textureID, w2.log (Event.cerr "Failed to load embedded texture"))

/-- The function `TextureFromFile(path, directory, scene)`. -/
def TextureFromFile (env : Env) (path : String) (directory : String)
    (scene : Option aiScene) (w : World) : Nat × World :=
  let w0 := w.log (Event.call_TextureFromFile path)
  if path.data.head? = some '*' then
    let index : Int := atoi (path.data.drop 1)
    match scene with
    | some sc =>
      if index < castInt sc.mNumTextures then
        TextureFromEmbedded env (sc.mTextures index) (w0.log (Event.read_mTextures index))
      else
        (0, w0.log (Event.cerr ("Invalid embedded texture index: " ++ toString index)))
    | none => (0, w0.log (Event.cerr ("Invalid embedded texture index: " ++ toString index)))
  else
    let filename := directory ++ "/" ++ path
    let (textureID, w1) := genTexture env w0
    let w2 := w1.log (Event.stbi_load filename)
    match env.stbi_load filename with
    | some img => (textureID, (w2.logs (uploadCalls textureID img)).log Event.stbi_image_free)
    | none =>
      (textureID,
        (w2.log (Event.cerr ("Texture failed to load at path: " ++ path))).log
          Event.stbi_image_free)

/-! ## `Model` -/

/-- The data members of `class Model`. -/
structure Model where
  scene : Option aiScene
  meshes : List Mesh
  textures_loaded : List Texture
  directory : String

/-- The loop `for (i = 0; i < mat->GetTextureCount(type); i++)` of
`loadMaterialTextures`, over the identifiers still to fetch; `textures` is the
local vector. The inner loop stops at the first entry of `textures_loaded`
whose path compares equal. -/
def loadMaterialTextures.loop (env : Env) (typeName : String) :
    List String → List Texture → Model → World → List Texture × Model × World
  | [], textures, m, w => (textures, m, w)
  | str :: rest, textures, m, w =>
    match m.textures_loaded.find? (fun t => strcmp t.path str = 0) with
    | some t => loadMaterialTextures.loop env typeName rest (textures ++ [t]) m w
    | none =>
      let r := TextureFromFile env str m.directory m.scene w
      let texture : Texture := { id := r.1, type := typeName, path := str }
      loadMaterialTextures.loop env typeName rest (textures ++ [texture])
        { m with textures_loaded := m.textures_loaded ++ [texture] } r.2

/-- The function `Model::loadMaterialTextures(mat, type, typeName)`. -/
def loadMaterialTextures (env : Env) (m : Model) (w : World) (mat : aiMaterial)
    (type : aiTextureType) (typeName : String) : List Texture × Model × World :=
  loadMaterialTextures.loop env typeName (mat.bound type) [] m w

/-- The body of the vertex loop of `processMesh` at index `i`: `none` when
`mesh->mNormals` is null, which the body dereferences without a test. -/
def processMesh.vertex (mesh : aiMesh) (i : Nat) : Option Vertex :=
  match mesh.mNormals with
  | none => none
  | some normals =>
    some
      { Position :=
          { x := (mesh.mVertices i).x, y := (mesh.mVertices i).y, z := (mesh.mVertices i).z },
        Normal := { x := (normals i).x, y := (normals i).y, z := (normals i).z },
        TexCoords :=
          match mesh.mTextureCoords0 with
          | some uv => { x := (uv i).x, y := (uv i).y }
          | none => { x := 0, y := 0 } }

/-- The vertex loop of `processMesh`, over the indices still to process. -/
def processMesh.vertexLoop (mesh : aiMesh) : List Nat → Option (List Vertex)
  | [] => some []
  | i :: rest =>
    match processMesh.vertex mesh i with
    | none => none
    | some vertex =>
      match processMesh.vertexLoop mesh rest with
      | none => none
      | some vertices => some (vertex :: vertices)

/-- The index loop of `processMesh`: the indices of every face, face after face. -/
def processMesh.indices (mesh : aiMesh) : List Nat :=
  mesh.mFaces.foldl (fun acc face => acc ++ face.mIndices) []

/-- The material block of `processMesh`: the local vector `textures` after it,
with the `Model` and the world. -/
def processMesh.material (env : Env) (m : Model) (w : World) (mesh : aiMesh) (scene : aiScene) :
    List Texture × Model × World :=
  if mesh.mMaterialIndex ≥ 0 then
    let material := scene.mMaterials mesh.mMaterialIndex
    let d := loadMaterialTextures env m w material aiTextureType_DIFFUSE "texture_diffuse"
    let s := loadMaterialTextures env d.2.1 d.2.2 material aiTextureType_SPECULAR "texture_specular"
    let n := loadMaterialTextures env s.2.1 s.2.2 material aiTextureType_HEIGHT "texture_normal"
    let h := loadMaterialTextures env n.2.1 n.2.2 material aiTextureType_AMBIENT "texture_height"
    (d.1 ++ s.1 ++ n.1 ++ h.1, h.2.1, h.2.2)
  else
    ([], m, w)

/-- The function `Model::processMesh(mesh, scene)`: the vertex loop, the index
loop, the material block, then `Mesh(vertices, indices, textures)`; `none` when
the vertex loop dereferences a null `mNormals`. -/
def processMesh (env : Env) (m : Model) (w : World) (mesh : aiMesh) (scene : aiScene) :
    Option (Mesh × Model × World) :=
  match processMesh.vertexLoop mesh (List.range mesh.mNumVertices) with
  | none => none
  | some vertices =>
    let t := processMesh.material env m w mesh scene
    some ({ vertices := vertices, indices := processMesh.indices mesh, textures := t.1 },
      t.2.1, t.2.2)

/-- The first loop of `processNode`, over the mesh references still to process:
`meshes.push_back(processMesh(scene->mMeshes[node->mMeshes[i]], scene))`. -/
def processNode.meshLoop (env : Env) (scene : aiScene) :
    List Nat → Model → World → Option (Model × World)
  | [], m, w => some (m, w)
  | i :: rest, m, w =>
    match processMesh env m w (scene.mMeshes i) scene with
    | none => none
    | some r =>
      processNode.meshLoop env scene rest { r.2.1 with meshes := r.2.1.meshes ++ [r.1] } r.2.2

mutual
/-- The function `Model::processNode(node, scene)`. -/
def processNode (env : Env) (scene : aiScene) :
    aiNode → Model → World → Option (Model × World)
  | .mk mMeshes mChildren, m, w =>
    match processNode.meshLoop env scene mMeshes m w with
    | none => none
    | some r => processNode.childLoop env scene mChildren r.1 r.2
/-- The second loop of `processNode`, over the children still to visit. -/
def processNode.childLoop (env : Env) (scene : aiScene) :
    List aiNode → Model → World → Option (Model × World)
  | [], m, w => some (m, w)
  | c :: cs, m, w =>
    match processNode env scene c m w with
    | none => none
    | some r => processNode.childLoop env scene cs r.1 r.2
end

/-- The function `Model::loadModel(path)`; `none` when the walk crashes. -/
def loadModel (env : Env) (m : Model) (w : World) (path : String) : Option (Model × World) :=
  let m1 : Model := { m with scene := env.ReadFile path }
  let failed : Model × World := (m1, w.log (Event.cerr ("ERROR::ASSIMP::" ++ env.GetErrorString)))
  match env.ReadFile path with
  | none => some failed
  | some scene =>
    if scene.mFlags &&& env.AI_SCENE_FLAGS_INCOMPLETE ≠ 0 then some failed
    else
      match scene.mRootNode with
      | none => some failed
      | some root =>
        processNode env scene root
          { m1 with directory := substr path 0 (find_last_of path '/') } w

/-- The constructor `Model::Model(path, directory)`: the members as the constructor leaves them
(`meshes` and `textures_loaded` start empty, `directory` is the argument), then
`loadModel(path)`. -/
def Model.new (env : Env) (w : World) (path : String) (directory : String) :
    Option (Model × World) :=
  loadModel env { scene := none, meshes := [], textures_loaded := [], directory := directory } w
    path

/-- The function `Model::Draw(shader)`: `meshes[i].Draw(shader)` for each `i` in order. -/
def Model.Draw (m : Model) (w : World) : World :=
  w.logs (m.meshes.map Event.Mesh_Draw)

/-! ## Notions the properties are stated with -/

/-- The number of entries into `TextureFromFile` made with identifier `p`. -/
def callCount (p : String) (trace : List Event) : Nat :=
  trace.count (Event.call_TextureFromFile p)

/-- One call `loadMaterialTextures(mat, type, typeName)`. -/
structure LoadCall where
  mat : aiMaterial
  type : aiTextureType
  typeName : String

/-- A sequence of `loadMaterialTextures` calls made one after the other on the
same `Model`; the first component collects what each call returned. -/
def loadCalls (env : Env) : List LoadCall → Model → World → List (List Texture) × Model × World
  | [], m, w => ([], m, w)
  | c :: cs, m, w =>
    let r := loadMaterialTextures env m w c.mat c.type c.typeName
    let rs := loadCalls env cs r.2.1 r.2.2
    (r.1 :: rs.1, rs.2.1, rs.2.2)

/-- The identifiers a sequence of load calls asks for, in the order asked. -/
def requested (calls : List LoadCall) : List String :=
  (calls.map (fun c => c.mat.bound c.type)).flatten

mutual
/-- The depth-first pre-order flattening of a node tree, in the words of the
specification: all mesh references of the node in their stored order, then each
child subtree in the child order. -/
def preorder : aiNode → List Nat
  | .mk mMeshes mChildren => mMeshes ++ preorderChildren mChildren
/-- The pre-order flattening of a sequence of subtrees, one after the other. -/
def preorderChildren : List aiNode → List Nat
  | [] => []
  | c :: cs => preorder c ++ preorderChildren cs
end

mutual
/-- The number of nodes of a tree. -/
def nodeCount : aiNode → Nat
  | .mk _ mChildren => 1 + nodeCountChildren mChildren
/-- The number of nodes of a sequence of trees. -/
def nodeCountChildren : List aiNode → Nat
  | [] => 0
  | c :: cs => nodeCount c + nodeCountChildren cs
end

mutual
/-- Every node of the tree owns exactly one mesh reference. -/
def oneMeshEach : aiNode → Bool
  | .mk mMeshes mChildren => decide (mMeshes.length = 1) && oneMeshEachChildren mChildren
/-- Every node of every tree of the sequence owns exactly one mesh reference. -/
def oneMeshEachChildren : List aiNode → Bool
  | [] => true
  | c :: cs => oneMeshEach c && oneMeshEachChildren cs
end

/-- The geometry `processMesh` builds for a mesh record: its vertex buffer and
its index buffer. -/
def geometry (mesh : Mesh) : List Vertex × List Nat :=
  (mesh.vertices, mesh.indices)

/-- The state of the texture cache during a model load: no two entries of
`textures_loaded` have the same path, and `TextureFromFile` was entered exactly
once for each cached path and never for another identifier. -/
def cacheInvariant (m : Model) (w : World) : Prop :=
  (m.textures_loaded.map Texture.path).Nodup ∧
    ∀ p, callCount p w.trace = if p ∈ m.textures_loaded.map Texture.path then 1 else 0

/-- The slot the loop of `loadMaterialTextures` builds on a cache miss. -/
def freshTexture (env : Env) (typeName str : String) (m : Model) (w : World) : Texture :=
  { id := (TextureFromFile env str m.directory m.scene w).1, type := typeName, path := str }

/-- The `Model` after `textures_loaded.push_back(texture)`. -/
def Model.remember (m : Model) (texture : Texture) : Model :=
  { m with textures_loaded := m.textures_loaded ++ [texture] }

/-- The `Model` `m'` differs from `m` at most by entries appended to
`textures_loaded`. -/
def cacheGrows (m m' : Model) : Prop :=
  m'.scene = m.scene ∧ m'.directory = m.directory ∧ m'.meshes = m.meshes ∧
    ∃ added, m'.textures_loaded = m.textures_loaded ++ added

/-- The geometry `processMesh` builds from a mesh record: one vertex per declared
vertex, and the face indices one face after the other; `none` when the vertex
loop crashes. -/
def recordGeometry (mesh : aiMesh) : Option (List Vertex × List Nat) :=
  (processMesh.vertexLoop mesh (List.range mesh.mNumVertices)).map
    (fun vertices => (vertices, (mesh.mFaces.map aiFace.mIndices).flatten))

/-- The vertex the body of the vertex loop builds at index `i` from a record
whose normals are `normals`. -/
def builtVertex (mesh : aiMesh) (normals : Nat → aiVector3D) (i : Nat) : Vertex :=
  { Position := { x := (mesh.mVertices i).x, y := (mesh.mVertices i).y, z := (mesh.mVertices i).z },
    Normal := { x := (normals i).x, y := (normals i).y, z := (normals i).z },
    TexCoords :=
      match mesh.mTextureCoords0 with
      | some uv => { x := (uv i).x, y := (uv i).y }
      | none => { x := 0, y := 0 } }

/-- The vertex loop of `processMesh` dereferences no null pointer on this
record: the record has normals, or it declares no vertex. -/
def normalsReadable (mesh : aiMesh) : Prop :=
  mesh.mNormals.isSome = true ∨ mesh.mNumVertices = 0

/-! ## Concrete inputs -/

/-- A world in which nothing has happened yet. -/
def emptyWorld : World := { generated := 0, trace := [] }

/-- A `Model` constructed with the base directory `models`, before any load. -/
def modelsModel : Model :=
  { scene := none, meshes := [], textures_loaded := [], directory := "models" }

/-- A `Model` as the constructor leaves it before `loadModel`. -/
def emptyModel : Model := { scene := none, meshes := [], textures_loaded := [], directory := "" }

/-- An embedded texture of 2 by 2 raw pixels. -/
def rawTexture : aiTexture := { mWidth := 2, mHeight := 2, pcData := [] }

/-- A material that binds `t.png` as its only diffuse texture. -/
def oneDiffuse : aiMaterial :=
  { bound := fun type => if type = aiTextureType_DIFFUSE then ["t.png"] else [] }

/-- A material that binds the embedded reference `*5` as its only diffuse texture. -/
def embeddedFive : aiMaterial :=
  { bound := fun type => if type = aiTextureType_DIFFUSE then ["*5"] else [] }

/-- A material that binds `wall.png` as diffuse and again as specular, and
`roof.png` as a second diffuse texture. -/
def wallMaterial : aiMaterial :=
  { bound := fun type =>
      if type = aiTextureType_DIFFUSE then ["wall.png", "roof.png"]
      else if type = aiTextureType_SPECULAR then ["wall.png"] else [] }

/-- A material that binds nothing. -/
def bareMaterial : aiMaterial := { bound := fun _ => [] }

/-- A triangle with positions, normals and no UV channel. -/
def triangle : aiMesh :=
  { mNumVertices := 3
    mVertices := fun i => { x := i + 1, y := 10, z := 20 }
    mNormals := some (fun i => { x := 7, y := i, z := 9 })
    mTextureCoords0 := none
    mFaces := [{ mIndices := [0, 1, 2] }]
    mMaterialIndex := 0 }

/-- The triangle of an asset that carries neither normals nor UV data. -/
def bareTriangle : aiMesh :=
  { mNumVertices := 3
    mVertices := fun i => { x := i + 1, y := 10, z := 20 }
    mNormals := none
    mTextureCoords0 := none
    mFaces := [{ mIndices := [0, 1, 2] }]
    mMaterialIndex := 0 }

/-- A mesh record that declares no vertex and one face `0 1 2`. -/
def danglingFace : aiMesh :=
  { mNumVertices := 0
    mVertices := fun _ => { x := 0, y := 0, z := 0 }
    mNormals := some (fun _ => { x := 0, y := 0, z := 0 })
    mTextureCoords0 := none
    mFaces := [{ mIndices := [0, 1, 2] }]
    mMaterialIndex := 0 }

/-- A scene of one node and one triangle whose material binds `t.png`; its
embedded-texture table has one entry. -/
def smallScene : aiScene :=
  { mFlags := 0
    mRootNode := some (aiNode.mk [0] [])
    mMeshes := fun _ => triangle
    mMaterials := fun _ => oneDiffuse
    mNumTextures := 1
    mTextures := fun _ => rawTexture }

/-- A scene like `smallScene` whose only material binds `*5`, with a table of
two entries. -/
def embeddedScene : aiScene :=
  { mFlags := 0
    mRootNode := some (aiNode.mk [0] [])
    mMeshes := fun _ => triangle
    mMaterials := fun _ => embeddedFive
    mNumTextures := 2
    mTextures := fun _ => rawTexture }

/-- A scene like `smallScene` whose only mesh is `bareTriangle`. -/
def bareTriangleScene : aiScene :=
  { mFlags := 0
    mRootNode := some (aiNode.mk [0] [])
    mMeshes := fun _ => bareTriangle
    mMaterials := fun _ => oneDiffuse
    mNumTextures := 0
    mTextures := fun _ => rawTexture }

/-- A scene without a root node. -/
def rootlessScene : aiScene :=
  { mFlags := 0
    mRootNode := none
    mMeshes := fun _ => triangle
    mMaterials := fun _ => oneDiffuse
    mNumTextures := 0
    mTextures := fun _ => rawTexture }

/-- A tree of four nodes, each with one mesh reference. -/
def fourNodes : aiNode :=
  aiNode.mk [3] [aiNode.mk [1] [aiNode.mk [4] []], aiNode.mk [2] []]

/-- An environment whose importer parses every path into `smallScene`, whose
decoder knows `models/t.png` and `models/wall.png` only, and whose graphics API
hands out the names 1, 2, 3, ... -/
def smallEnv : Env :=
  { ReadFile := fun _ => some smallScene
    GetErrorString := ""
    AI_SCENE_FLAGS_INCOMPLETE := 1
    stbi_load := fun f =>
      if f = "models/t.png" ∨ f = "models/wall.png" then
        some { width := 4, height := 4, nrComponents := 3 }
      else none
    stbi_load_from_memory := fun _ => none
    glGenTextures := fun k => k + 1 }

/-- The result of loading the diffuse textures of `wallMaterial` into
`modelsModel`: `wall.png` decodes, `roof.png` does not. -/
def afterDiffuse : List Texture × Model × World :=
  loadMaterialTextures smallEnv modelsModel emptyWorld wallMaterial aiTextureType_DIFFUSE
    "texture_diffuse"

/-- The two calls `processMesh` makes for the diffuse and the specular textures
of `wallMaterial`. -/
def wallCalls : List LoadCall :=
  [ { mat := wallMaterial, type := aiTextureType_DIFFUSE, typeName := "texture_diffuse" },
    { mat := wallMaterial, type := aiTextureType_SPECULAR, typeName := "texture_specular" } ]

/-- A scene like `smallScene` whose only material binds nothing. -/
def bareScene : aiScene :=
  { mFlags := 0
    mRootNode := some (aiNode.mk [0] [])
    mMeshes := fun _ => triangle
    mMaterials := fun _ => bareMaterial
    mNumTextures := 0
    mTextures := fun _ => rawTexture }

/-- A scene like `smallScene` whose only material is `wallMaterial`. -/
def wallScene : aiScene :=
  { mFlags := 0
    mRootNode := some (aiNode.mk [0] [])
    mMeshes := fun _ => triangle
    mMaterials := fun _ => wallMaterial
    mNumTextures := 0
    mTextures := fun _ => rawTexture }

/-- A mesh record of `n` vertices and no face. -/
def pointCloud (n : Nat) : aiMesh :=
  { mNumVertices := n
    mVertices := fun i => { x := i, y := 0, z := 0 }
    mNormals := some (fun _ => { x := 0, y := 0, z := 1 })
    mTextureCoords0 := none
    mFaces := []
    mMaterialIndex := 0 }

/-- A scene whose mesh number `i` has `i` vertices, over the tree `fourNodes`. -/
def numberedScene : aiScene :=
  { mFlags := 0
    mRootNode := some fourNodes
    mMeshes := fun i => pointCloud i
    mMaterials := fun _ => oneDiffuse
    mNumTextures := 0
    mTextures := fun _ => rawTexture }

/-- An environment like `smallEnv` whose importer returns `bareTriangleScene`. -/
def bareTriangleEnv : Env := { smallEnv with ReadFile := fun _ => some bareTriangleScene }

/-- An environment like `smallEnv` whose importer returns `rootlessScene`. -/
def rootlessEnv : Env := { smallEnv with ReadFile := fun _ => some rootlessScene }

end VoxEngine

namespace VoxEngine

open aiTextureType

/-! ## `processMesh`: geometry -/

theorem foldl_append_mIndices (faces : List aiFace) (acc : List Nat) :
    faces.foldl (fun acc face => acc ++ face.mIndices) acc
      = acc ++ (faces.map aiFace.mIndices).flatten := by
  induction faces generalizing acc with
  | nil => simp
  | cons f fs ih => simp [ih, List.append_assoc]

theorem processMesh_indices_eq (mesh : aiMesh) :
    processMesh.indices mesh = (mesh.mFaces.map aiFace.mIndices).flatten := by
  simp [processMesh.indices, foldl_append_mIndices]

theorem vertex_of_normals (mesh : aiMesh) (normals : Nat → aiVector3D)
    (h : mesh.mNormals = some normals) (i : Nat) :
    processMesh.vertex mesh i = some (builtVertex mesh normals i) := by
  simp [processMesh.vertex, h, builtVertex]

theorem vertexLoop_of_normals (mesh : aiMesh) (normals : Nat → aiVector3D)
    (h : mesh.mNormals = some normals) (is : List Nat) :
    processMesh.vertexLoop mesh is = some (is.map (builtVertex mesh normals)) := by
  induction is with
  | nil => rfl
  | cons i rest ih => simp [processMesh.vertexLoop, vertex_of_normals mesh normals h, ih]

theorem vertexLoop_null_normals (mesh : aiMesh) (h : mesh.mNormals = none) (i : Nat)
    (rest : List Nat) : processMesh.vertexLoop mesh (i :: rest) = none := by
  simp [processMesh.vertexLoop, processMesh.vertex, h]

theorem vertexLoop_of_readable (mesh : aiMesh) (h : normalsReadable mesh) :
    ∃ vertices, processMesh.vertexLoop mesh (List.range mesh.mNumVertices) = some vertices := by
  rcases h with h | h
  · obtain ⟨normals, hn⟩ := Option.isSome_iff_exists.mp h
    exact ⟨_, vertexLoop_of_normals mesh normals hn _⟩
  · exact ⟨[], by rw [h]; rfl⟩

/-- What `processMesh` returns when it returns. -/
theorem processMesh_some (env : Env) (m : Model) (w : World) (mesh : aiMesh) (scene : aiScene)
    (r : Mesh × Model × World) (h : processMesh env m w mesh scene = some r) :
    processMesh.vertexLoop mesh (List.range mesh.mNumVertices) = some r.1.vertices ∧
    r.1.indices = (mesh.mFaces.map aiFace.mIndices).flatten ∧
    r.1.textures = (processMesh.material env m w mesh scene).1 ∧
    r.2 = (processMesh.material env m w mesh scene).2 := by
  unfold processMesh at h
  cases hv : processMesh.vertexLoop mesh (List.range mesh.mNumVertices) with
  | none => simp [hv] at h
  | some vertices =>
    simp only [hv, Option.some.injEq] at h
    subst h
    exact ⟨rfl, processMesh_indices_eq mesh, rfl, rfl⟩

theorem processMesh_isSome (env : Env) (m : Model) (w : World) (mesh : aiMesh) (scene : aiScene)
    (h : normalsReadable mesh) : (processMesh env m w mesh scene).isSome = true := by
  obtain ⟨vertices, hv⟩ := vertexLoop_of_readable mesh h
  simp [processMesh, hv]

theorem vertexLoop_length (mesh : aiMesh) (is : List Nat) (vertices : List Vertex)
    (h : processMesh.vertexLoop mesh is = some vertices) : vertices.length = is.length := by
  cases hn : mesh.mNormals with
  | none =>
    cases is with
    | nil => simp [processMesh.vertexLoop] at h; simp [← h]
    | cons i rest => simp [vertexLoop_null_normals mesh hn] at h
  | some normals =>
    rw [vertexLoop_of_normals mesh normals hn] at h
    simp [← Option.some.inj h]

/-- C3, as amended: for every mesh record whose face indices are all below the
vertex count it declares, every entry of the index buffer `processMesh` produces
is strictly less than the number of vertices of the vertex buffer it produces;
and `processMesh` produces a mesh for every record that has normals or declares
no vertex. -/
theorem processMesh_index_bound (env : Env) (m : Model) (w : World) (mesh : aiMesh)
    (scene : aiScene)
    (h : ∀ face ∈ mesh.mFaces, ∀ i ∈ face.mIndices, i < mesh.mNumVertices) :
    (∀ r, processMesh env m w mesh scene = some r →
      ∀ i ∈ r.1.indices, i < r.1.vertices.length) ∧
    (normalsReadable mesh → (processMesh env m w mesh scene).isSome = true) := by
  refine ⟨?_, processMesh_isSome env m w mesh scene⟩
  intro r hr i hi
  obtain ⟨hv, hidx, _, _⟩ := processMesh_some env m w mesh scene r hr
  rw [hidx] at hi
  rw [vertexLoop_length mesh _ _ hv, List.length_range]
  obtain ⟨l, hl, hil⟩ := List.mem_flatten.mp hi
  obtain ⟨face, hface, rfl⟩ := List.mem_map.mp hl
  exact h face hface i hil

/-- C3, witness: the triangle `0 1 2` over three vertices. -/
theorem processMesh_index_bound_witness :
    (∀ face ∈ triangle.mFaces, ∀ i ∈ face.mIndices, i < triangle.mNumVertices) ∧
    (processMesh smallEnv emptyModel emptyWorld triangle smallScene).isSome = true ∧
    ∀ r, processMesh smallEnv emptyModel emptyWorld triangle smallScene = some r →
      ∀ i ∈ r.1.indices, i < r.1.vertices.length :=
  ⟨by decide,
    (processMesh_index_bound smallEnv emptyModel emptyWorld triangle smallScene (by decide)).2
      (Or.inl rfl),
    (processMesh_index_bound smallEnv emptyModel emptyWorld triangle smallScene (by decide)).1⟩

/-- C3, counterexample: a mesh record that declares no vertex and one face
`0 1 2` gives the index buffer `0 1 2` over an empty vertex buffer. -/
theorem processMesh_index_bound_fails :
    (processMesh smallEnv emptyModel emptyWorld danglingFace smallScene).map
        (fun r => r.1.indices) = some [0, 1, 2] ∧
    (processMesh smallEnv emptyModel emptyWorld danglingFace smallScene).map
        (fun r => r.1.vertices.length) = some 0 ∧
    ¬ ∀ r ∈ (processMesh smallEnv emptyModel emptyWorld danglingFace smallScene).map
          (fun r => r.1),
        ∀ i ∈ r.indices, i < r.vertices.length := by
  decide

/-- C7, at the failing input: a triangle without UV data and without normals.
The vertex loop dereferences the null `mNormals` at its first vertex, so
`processMesh` produces no mesh, and constructing a `Model` from an asset with
that mesh produces no `Model`. -/
theorem processMesh_null_normals :
    bareTriangle.mTextureCoords0.isNone = true ∧ bareTriangle.mNormals.isNone = true ∧
    bareTriangle.mNumVertices = 3 ∧
    processMesh.vertex bareTriangle 0 = none ∧
    (processMesh smallEnv emptyModel emptyWorld bareTriangle smallScene).isNone = true ∧
    (Model.new bareTriangleEnv emptyWorld "models/bare.obj" "").isNone = true := by
  decide

/-- For a mesh record that has normals, `processMesh` produces a mesh of exactly
`mNumVertices` vertices; without a first UV channel vertex `i` has the position
and the normal of the record at `i` and the texture coordinate (0,0); with a
first UV channel its texture coordinate is the channel's `(x, y)` at `i`. -/
theorem processMesh_vertices_of_normals (env : Env) (m : Model) (w : World) (mesh : aiMesh)
    (scene : aiScene) (normals : Nat → aiVector3D) (hn : mesh.mNormals = some normals) :
    ∃ r, processMesh env m w mesh scene = some r ∧
      r.1.vertices.length = mesh.mNumVertices ∧
      (mesh.mTextureCoords0 = none → ∀ i, i < mesh.mNumVertices →
        r.1.vertices[i]? =
          some { Position := { x := (mesh.mVertices i).x, y := (mesh.mVertices i).y,
                               z := (mesh.mVertices i).z }
                 Normal := { x := (normals i).x, y := (normals i).y, z := (normals i).z }
                 TexCoords := { x := 0, y := 0 } }) ∧
      (∀ uv, mesh.mTextureCoords0 = some uv → ∀ i, i < mesh.mNumVertices →
        (r.1.vertices[i]?).map Vertex.TexCoords = some { x := (uv i).x, y := (uv i).y }) := by
  have hv := vertexLoop_of_normals mesh normals hn (List.range mesh.mNumVertices)
  have hr : processMesh env m w mesh scene
      = some ({ vertices := (List.range mesh.mNumVertices).map (builtVertex mesh normals),
                indices := processMesh.indices mesh,
                textures := (processMesh.material env m w mesh scene).1 },
              (processMesh.material env m w mesh scene).2.1,
              (processMesh.material env m w mesh scene).2.2) := by
    simp only [processMesh, hv]
  refine ⟨_, hr, by simp, ?_, ?_⟩
  · intro hnone i hi
    simp [List.getElem?_map, List.getElem?_range hi, builtVertex, hnone]
  · intro uv huv i hi
    simp [List.getElem?_map, List.getElem?_range hi, builtVertex, huv]

/-! ## `loadModel`: import failure -/

theorem Draw_no_meshes (m : Model) (w : World) (h : m.meshes = []) : Model.Draw m w = w := by
  simp [Model.Draw, World.logs, h]

/-- C6: when the importer returns a null scene, a scene flagged incomplete or a
scene without a root node, `loadModel` only stores the scene pointer and writes
the error message: no `processNode`, no texture load. A `Model` constructed on
such a path has no mesh and no loaded texture, and `Draw` on it makes no call. -/
theorem loadModel_import_failure (env : Env) (m : Model) (w : World) (path : String)
    (h : env.ReadFile path = none ∨ ∃ scene, env.ReadFile path = some scene ∧
      (scene.mFlags &&& env.AI_SCENE_FLAGS_INCOMPLETE ≠ 0 ∨ scene.mRootNode = none)) :
    loadModel env m w path
        = some ({ m with scene := env.ReadFile path },
            w.log (Event.cerr ("ERROR::ASSIMP::" ++ env.GetErrorString))) ∧
    ∀ directory : String, ∃ r, Model.new env w path directory = some r ∧
      r.1.meshes = [] ∧
      r.1.textures_loaded = [] ∧
      r.2.trace = w.trace ++ [Event.cerr ("ERROR::ASSIMP::" ++ env.GetErrorString)] ∧
      Model.Draw r.1 r.2 = r.2 := by
  have key : ∀ m0 : Model, loadModel env m0 w path
      = some ({ m0 with scene := env.ReadFile path },
          w.log (Event.cerr ("ERROR::ASSIMP::" ++ env.GetErrorString))) := by
    intro m0
    rcases h with h | ⟨scene, hs, h | h⟩
    · simp [loadModel, h]
    · simp [loadModel, hs, h]
    · by_cases hf : scene.mFlags &&& env.AI_SCENE_FLAGS_INCOMPLETE = 0
      · simp [loadModel, hs, h, hf]
      · simp [loadModel, hs, hf]
  refine ⟨key m, ?_⟩
  intro directory
  rw [Model.new, key]
  exact ⟨_, rfl, rfl, rfl, rfl, Draw_no_meshes _ _ rfl⟩

/-- C6, witness: a scene without a root node. -/
theorem loadModel_import_failure_witness :
    (rootlessEnv.ReadFile "castle.obj" = none ∨ ∃ scene,
      rootlessEnv.ReadFile "castle.obj" = some scene ∧
      (scene.mFlags &&& rootlessEnv.AI_SCENE_FLAGS_INCOMPLETE ≠ 0 ∨ scene.mRootNode = none)) ∧
    ∃ r, Model.new rootlessEnv emptyWorld "castle.obj" "models" = some r ∧
      r.1.meshes = [] ∧
      r.1.textures_loaded = [] ∧
      r.2.trace = emptyWorld.trace
        ++ [Event.cerr ("ERROR::ASSIMP::" ++ rootlessEnv.GetErrorString)] ∧
      Model.Draw r.1 r.2 = r.2 :=
  have h : rootlessEnv.ReadFile "castle.obj" = none ∨ ∃ scene,
      rootlessEnv.ReadFile "castle.obj" = some scene ∧
      (scene.mFlags &&& rootlessEnv.AI_SCENE_FLAGS_INCOMPLETE ≠ 0 ∨ scene.mRootNode = none) :=
    Or.inr ⟨rootlessScene, rfl, Or.inr rfl⟩
  ⟨h, (loadModel_import_failure rootlessEnv emptyModel emptyWorld "castle.obj" h).2 "models"⟩

/-! ## The trace of `TextureFromFile` -/

theorem callCount_single (p : String) (e : Event) :
    callCount p [e] = if e = Event.call_TextureFromFile p then 1 else 0 := by
  by_cases h : e = Event.call_TextureFromFile p
  · simp [callCount, h]
  · simp [callCount, h, List.count_cons]

theorem callCount_log (p : String) (w : World) (e : Event) :
    callCount p (w.log e).trace
      = callCount p w.trace + if e = Event.call_TextureFromFile p then 1 else 0 := by
  rw [← callCount_single]
  simp [callCount, World.log, List.count_append]

theorem callCount_logs (p : String) (w : World) (es : List Event) :
    callCount p (w.logs es).trace = callCount p w.trace + callCount p es := by
  simp [callCount, World.logs, List.count_append]

theorem callCount_genTexture (env : Env) (p : String) (w : World) :
    callCount p (genTexture env w).2.trace = callCount p w.trace := by
  simp [callCount, genTexture, List.count_append, List.count_cons]

theorem callCount_uploadCalls (p : String) (id : Nat) (img : Image) :
    callCount p (uploadCalls id img) = 0 := by
  simp [callCount, uploadCalls, List.count_cons]

theorem TextureFromEmbedded_callCount (env : Env) (aiTex : aiTexture) (w : World) (p : String) :
    callCount p (TextureFromEmbedded env aiTex w).2.trace = callCount p w.trace := by
  unfold TextureFromEmbedded
  by_cases h : aiTex.mHeight = 0
  · cases hd : env.stbi_load_from_memory aiTex <;>
      simp [h, hd, callCount_log, callCount_logs, callCount_genTexture, callCount_uploadCalls]
  · simp [h, callCount_log, callCount_logs, callCount_genTexture, callCount_uploadCalls]

theorem TextureFromFile_callCount (env : Env) (path directory : String) (scene : Option aiScene)
    (w : World) (p : String) :
    callCount p (TextureFromFile env path directory scene w).2.trace
      = callCount p w.trace + if path = p then 1 else 0 := by
  unfold TextureFromFile
  by_cases hstar : path.data.head? = some '*'
  · cases scene with
    | none => simp [hstar, callCount_log]
    | some sc =>
      by_cases hi : atoi (path.data.drop 1) < castInt sc.mNumTextures
      · simp only [hstar, hi, if_true, TextureFromEmbedded_callCount]
        simp [callCount_log]
      · simp only [hstar, hi, if_true, if_false]
        simp [callCount_log]
  · cases hd : env.stbi_load (directory ++ "/" ++ path) <;>
      simp [hstar, hd, callCount_log, callCount_logs, callCount_genTexture, callCount_uploadCalls]

/-! ## The loop of `loadMaterialTextures` -/

theorem strcmp_go_eq_zero (a b : List Char) : strcmp.go a b = 0 ↔ a = b := by
  induction a generalizing b with
  | nil => cases b <;> simp [strcmp.go]
  | cons x xs ih =>
    cases b with
    | nil => simp [strcmp.go]
    | cons y ys =>
      by_cases hxy : x = y
      · simp [strcmp.go, hxy, ih]
      · by_cases hlt : x.toNat < y.toNat <;> simp [strcmp.go, hxy, hlt]

theorem strcmp_eq_zero (a b : String) : strcmp a b = 0 ↔ a = b := by
  unfold strcmp
  rw [strcmp_go_eq_zero]
  exact ⟨fun h => String.ext h, fun h => h ▸ rfl⟩

theorem find?_hit {l : List Texture} {str : String} {t : Texture}
    (h : l.find? (fun t => strcmp t.path str = 0) = some t) : t ∈ l ∧ t.path = str := by
  refine ⟨List.mem_of_find?_eq_some h, ?_⟩
  have := List.find?_some h
  simpa [strcmp_eq_zero] using this

theorem find?_miss {l : List Texture} {str : String}
    (h : l.find? (fun t => strcmp t.path str = 0) = none) : str ∉ l.map Texture.path := by
  intro hmem
  obtain ⟨t, ht, rfl⟩ := List.mem_map.mp hmem
  have := List.find?_eq_none.mp h t ht
  simp [strcmp_eq_zero] at this

theorem find?_of_mem {l : List Texture} {str : String} (h : str ∈ l.map Texture.path) :
    ∃ t, l.find? (fun t => strcmp t.path str = 0) = some t := by
  cases hf : l.find? (fun t => strcmp t.path str = 0) with
  | some t => exact ⟨t, rfl⟩
  | none => exact absurd h (find?_miss hf)

theorem loop_cons_hit (env : Env) (typeName str : String) (rest : List String)
    (textures : List Texture) (m : Model) (w : World) (t : Texture)
    (h : m.textures_loaded.find? (fun t => strcmp t.path str = 0) = some t) :
    loadMaterialTextures.loop env typeName (str :: rest) textures m w
      = loadMaterialTextures.loop env typeName rest (textures ++ [t]) m w := by
  rw [loadMaterialTextures.loop, h]

theorem loop_cons_miss (env : Env) (typeName str : String) (rest : List String)
    (textures : List Texture) (m : Model) (w : World)
    (h : m.textures_loaded.find? (fun t => strcmp t.path str = 0) = none) :
    loadMaterialTextures.loop env typeName (str :: rest) textures m w
      = loadMaterialTextures.loop env typeName rest
          (textures ++ [freshTexture env typeName str m w])
          (m.remember (freshTexture env typeName str m w))
          (TextureFromFile env str m.directory m.scene w).2 := by
  rw [loadMaterialTextures.loop, h]
  rfl

theorem loop_paths (env : Env) (typeName : String) (ids : List String) :
    ∀ (textures : List Texture) (m : Model) (w : World),
      (loadMaterialTextures.loop env typeName ids textures m w).1.map Texture.path
        = textures.map Texture.path ++ ids := by
  induction ids with
  | nil => intro textures m w; simp [loadMaterialTextures.loop]
  | cons str rest ih =>
    intro textures m w
    cases hf : m.textures_loaded.find? (fun t => strcmp t.path str = 0) with
    | some t =>
      rw [loop_cons_hit env typeName str rest textures m w t hf, ih]
      simp [(find?_hit hf).2]
    | none =>
      rw [loop_cons_miss env typeName str rest textures m w hf, ih]
      simp [freshTexture]

theorem loop_frame (env : Env) (typeName : String) (ids : List String) :
    ∀ (textures : List Texture) (m : Model) (w : World),
      (loadMaterialTextures.loop env typeName ids textures m w).2.1.scene = m.scene ∧
      (loadMaterialTextures.loop env typeName ids textures m w).2.1.directory = m.directory ∧
      (loadMaterialTextures.loop env typeName ids textures m w).2.1.meshes = m.meshes ∧
      ∃ added, (loadMaterialTextures.loop env typeName ids textures m w).2.1.textures_loaded
        = m.textures_loaded ++ added := by
  induction ids with
  | nil => intro textures m w; simp [loadMaterialTextures.loop]
  | cons str rest ih =>
    intro textures m w
    cases hf : m.textures_loaded.find? (fun t => strcmp t.path str = 0) with
    | some t =>
      rw [loop_cons_hit env typeName str rest textures m w t hf]
      exact ih _ _ _
    | none =>
      rw [loop_cons_miss env typeName str rest textures m w hf]
      obtain ⟨h1, h2, h3, added, h4⟩ := ih (textures ++ [freshTexture env typeName str m w])
        (m.remember (freshTexture env typeName str m w))
        (TextureFromFile env str m.directory m.scene w).2
      refine ⟨h1, h2, h3, freshTexture env typeName str m w :: added, ?_⟩
      rw [h4]
      simp [Model.remember]

/-- Every slot the loop returns was already in the local vector, or is an entry
of the cache as the loop leaves it. -/
theorem loop_mem (env : Env) (typeName : String) (ids : List String) :
    ∀ (textures : List Texture) (m : Model) (w : World),
      ∀ s ∈ (loadMaterialTextures.loop env typeName ids textures m w).1,
        s ∈ textures ∨
          s ∈ (loadMaterialTextures.loop env typeName ids textures m w).2.1.textures_loaded := by
  induction ids with
  | nil => intro textures m w s hs; left; simpa [loadMaterialTextures.loop] using hs
  | cons str rest ih =>
    intro textures m w s
    cases hf : m.textures_loaded.find? (fun t => strcmp t.path str = 0) with
    | some t =>
      rw [loop_cons_hit env typeName str rest textures m w t hf]
      intro hs
      rcases ih _ _ _ s hs with h | h
      · rcases List.mem_append.mp h with h | h
        · exact Or.inl h
        · right
          obtain ⟨_, _, _, added, h4⟩ := loop_frame env typeName rest (textures ++ [t]) m w
          rw [h4]
          have : s = t := by simpa using h
          rw [this]
          exact List.mem_append_left _ (find?_hit hf).1
      · exact Or.inr h
    | none =>
      rw [loop_cons_miss env typeName str rest textures m w hf]
      intro hs
      rcases ih _ _ _ s hs with h | h
      · rcases List.mem_append.mp h with h | h
        · exact Or.inl h
        · right
          obtain ⟨_, _, _, added, h4⟩ := loop_frame env typeName rest
            (textures ++ [freshTexture env typeName str m w])
            (m.remember (freshTexture env typeName str m w))
            (TextureFromFile env str m.directory m.scene w).2
          rw [h4]
          have : s = freshTexture env typeName str m w := by simpa using h
          rw [this]
          simp [Model.remember]
      · exact Or.inr h

/-- The loop keeps the cache invariant, and the paths cached afterwards are the
paths cached before together with the identifiers fetched. -/
theorem loop_invariant (env : Env) (typeName : String) (ids : List String) :
    ∀ (textures : List Texture) (m : Model) (w : World), cacheInvariant m w →
      cacheInvariant (loadMaterialTextures.loop env typeName ids textures m w).2.1
          (loadMaterialTextures.loop env typeName ids textures m w).2.2 ∧
      ∀ p, p ∈ (loadMaterialTextures.loop env typeName ids textures m w).2.1.textures_loaded.map
              Texture.path
            ↔ p ∈ m.textures_loaded.map Texture.path ∨ p ∈ ids := by
  induction ids with
  | nil => intro textures m w h; simpa [loadMaterialTextures.loop] using h
  | cons str rest ih =>
    intro textures m w hinv
    cases hf : m.textures_loaded.find? (fun t => strcmp t.path str = 0) with
    | some t =>
      rw [loop_cons_hit env typeName str rest textures m w t hf]
      obtain ⟨h1, h2⟩ := ih (textures ++ [t]) m w hinv
      refine ⟨h1, fun p => ?_⟩
      rw [h2 p]
      have hstr : str ∈ m.textures_loaded.map Texture.path :=
        List.mem_map.mpr ⟨t, (find?_hit hf).1, (find?_hit hf).2⟩
      constructor
      · rintro (h | h)
        · exact Or.inl h
        · exact Or.inr (List.mem_cons_of_mem _ h)
      · rintro (h | h)
        · exact Or.inl h
        · rcases List.mem_cons.mp h with h | h
          · exact Or.inl (h ▸ hstr)
          · exact Or.inr h
    | none =>
      rw [loop_cons_miss env typeName str rest textures m w hf]
      have hnot : str ∉ m.textures_loaded.map Texture.path := find?_miss hf
      have hinv2 : cacheInvariant (m.remember (freshTexture env typeName str m w))
          (TextureFromFile env str m.directory m.scene w).2 := by
        constructor
        · simp only [Model.remember, List.map_append, List.map_cons, List.map_nil, freshTexture]
          rw [List.nodup_append]
          refine ⟨hinv.1, by simp, ?_⟩
          intro a ha hb
          have : a = str := by simpa using hb
          exact hnot (this ▸ ha)
        · intro p
          rw [TextureFromFile_callCount, hinv.2 p]
          simp only [Model.remember, List.map_append, List.map_cons, List.map_nil, freshTexture,
            List.mem_append, List.mem_singleton]
          by_cases hp : p ∈ m.textures_loaded.map Texture.path
          · have : str ≠ p := fun e => hnot (e ▸ hp)
            simp [hp, this]
          · by_cases hps : str = p
            · simp [hp, hps]
            · have : ¬ p = str := fun e => hps e.symm
              simp [hp, hps, this]
      obtain ⟨h1, h2⟩ := ih (textures ++ [freshTexture env typeName str m w]) _ _ hinv2
      refine ⟨h1, fun p => ?_⟩
      rw [h2 p]
      simp only [Model.remember, List.map_append, List.map_cons, List.map_nil, freshTexture,
        List.mem_append, List.mem_singleton, List.mem_cons]
      tauto

/-- On identifiers that are all cached the loop changes neither the `Model` nor
the world, and appends for each identifier the first cached entry with that
path. -/
theorem loop_all_cached (env : Env) (typeName : String) (m : Model) (w : World)
    (ids : List String) :
    ∀ (textures : List Texture), (∀ p ∈ ids, p ∈ m.textures_loaded.map Texture.path) →
      ∃ out, loadMaterialTextures.loop env typeName ids textures m w = (textures ++ out, m, w) ∧
        List.Forall₂ (fun p s => m.textures_loaded.find? (fun t => t.path = p) = some s) ids out := by
  induction ids with
  | nil => intro textures _; exact ⟨[], by simp [loadMaterialTextures.loop], List.Forall₂.nil⟩
  | cons str rest ih =>
    intro textures h
    obtain ⟨t, ht⟩ := find?_of_mem (h str (List.mem_cons_self _ _))
    obtain ⟨out, h1, h2⟩ := ih (textures ++ [t]) (fun p hp => h p (List.mem_cons_of_mem _ hp))
    refine ⟨t :: out, ?_, List.Forall₂.cons ?_ h2⟩
    · rw [loop_cons_hit env typeName str rest textures m w t ht, h1]
      simp
    · rw [← ht]
      congr 1
      funext x
      simp [strcmp_eq_zero]

/-- C10: for every identifier `p` already present in `textures_loaded`, the
iteration of `loadMaterialTextures` on `p` pushes the first cached entry with
that path (id, kind tag and path as cached, whatever `typeName` the call passes)
and goes on with the same `Model` and the same world; and a call all of whose
identifiers are cached returns these entries in order and leaves the `Model`
and the world unchanged. -/
theorem loadMaterialTextures_cache_hit (env : Env) (m : Model) (w : World)
    (typeName : String) :
    (∀ p ∈ m.textures_loaded.map Texture.path,
      ∃ t, m.textures_loaded.find? (fun t => t.path = p) = some t ∧
        ∀ (rest : List String) (textures : List Texture),
          loadMaterialTextures.loop env typeName (p :: rest) textures m w
            = loadMaterialTextures.loop env typeName rest (textures ++ [t]) m w) ∧
    (∀ (mat : aiMaterial) (type : aiTextureType),
      (∀ p ∈ mat.bound type, p ∈ m.textures_loaded.map Texture.path) →
        (loadMaterialTextures env m w mat type typeName).2 = (m, w) ∧
        List.Forall₂ (fun p s => m.textures_loaded.find? (fun t => t.path = p) = some s)
          (mat.bound type) (loadMaterialTextures env m w mat type typeName).1) := by
  constructor
  · intro p hp
    obtain ⟨t, ht⟩ := find?_of_mem hp
    refine ⟨t, ?_, fun rest textures => loop_cons_hit env typeName p rest textures m w t ht⟩
    rw [← ht]
    congr 1
    funext x
    simp [strcmp_eq_zero]
  · intro mat type h
    obtain ⟨out, h1, h2⟩ := loop_all_cached env typeName m w (mat.bound type) [] h
    unfold loadMaterialTextures
    rw [h1]
    exact ⟨rfl, by simpa using h2⟩

/-- C10, witness: `wall.png` is first loaded as a diffuse texture; the request
for it as a specular texture returns the cached slot, tagged `texture_diffuse`,
and changes nothing. -/
theorem loadMaterialTextures_cache_hit_witness :
    (∀ p ∈ wallMaterial.bound aiTextureType_SPECULAR,
      p ∈ afterDiffuse.2.1.textures_loaded.map Texture.path) ∧
    ((loadMaterialTextures smallEnv afterDiffuse.2.1 afterDiffuse.2.2 wallMaterial
        aiTextureType_SPECULAR "texture_specular").2 = (afterDiffuse.2.1, afterDiffuse.2.2) ∧
      List.Forall₂
        (fun p s => afterDiffuse.2.1.textures_loaded.find? (fun t => t.path = p) = some s)
        (wallMaterial.bound aiTextureType_SPECULAR)
        (loadMaterialTextures smallEnv afterDiffuse.2.1 afterDiffuse.2.2 wallMaterial
          aiTextureType_SPECULAR "texture_specular").1) ∧
    (loadMaterialTextures smallEnv afterDiffuse.2.1 afterDiffuse.2.2 wallMaterial
        aiTextureType_SPECULAR "texture_specular").1
      = [{ id := 1, type := "texture_diffuse", path := "wall.png" }] :=
  ⟨by decide,
    (loadMaterialTextures_cache_hit smallEnv afterDiffuse.2.1 afterDiffuse.2.2
      "texture_specular").2 wallMaterial aiTextureType_SPECULAR (by decide),
    by decide⟩

/-! ## De-duplication over a whole model load -/

theorem loadMaterialTextures_invariant (env : Env) (m : Model) (w : World) (mat : aiMaterial)
    (type : aiTextureType) (typeName : String) (h : cacheInvariant m w) :
    cacheInvariant (loadMaterialTextures env m w mat type typeName).2.1
        (loadMaterialTextures env m w mat type typeName).2.2 ∧
    ∀ p, p ∈ (loadMaterialTextures env m w mat type typeName).2.1.textures_loaded.map Texture.path
          ↔ p ∈ m.textures_loaded.map Texture.path ∨ p ∈ mat.bound type :=
  loop_invariant env typeName (mat.bound type) [] m w h

theorem loadMaterialTextures_paths (env : Env) (m : Model) (w : World) (mat : aiMaterial)
    (type : aiTextureType) (typeName : String) :
    (loadMaterialTextures env m w mat type typeName).1.map Texture.path = mat.bound type := by
  unfold loadMaterialTextures
  rw [loop_paths]
  simp

theorem loadMaterialTextures_mem (env : Env) (m : Model) (w : World) (mat : aiMaterial)
    (type : aiTextureType) (typeName : String) :
    ∀ s ∈ (loadMaterialTextures env m w mat type typeName).1,
      s ∈ (loadMaterialTextures env m w mat type typeName).2.1.textures_loaded := by
  intro s hs
  rcases loop_mem env typeName (mat.bound type) [] m w s hs with h | h
  · simp at h
  · exact h

theorem loadMaterialTextures_frame (env : Env) (m : Model) (w : World) (mat : aiMaterial)
    (type : aiTextureType) (typeName : String) :
    (loadMaterialTextures env m w mat type typeName).2.1.scene = m.scene ∧
    (loadMaterialTextures env m w mat type typeName).2.1.directory = m.directory ∧
    (loadMaterialTextures env m w mat type typeName).2.1.meshes = m.meshes ∧
    ∃ added, (loadMaterialTextures env m w mat type typeName).2.1.textures_loaded
      = m.textures_loaded ++ added :=
  loop_frame env typeName (mat.bound type) [] m w

theorem loadCalls_spec (env : Env) (calls : List LoadCall) :
    ∀ (m : Model) (w : World), cacheInvariant m w →
      cacheInvariant (loadCalls env calls m w).2.1 (loadCalls env calls m w).2.2 ∧
      (∀ p, p ∈ (loadCalls env calls m w).2.1.textures_loaded.map Texture.path
            ↔ p ∈ m.textures_loaded.map Texture.path ∨ p ∈ requested calls) ∧
      (∃ added, (loadCalls env calls m w).2.1.textures_loaded = m.textures_loaded ++ added) ∧
      (∀ slots ∈ (loadCalls env calls m w).1, ∀ s ∈ slots,
        s ∈ (loadCalls env calls m w).2.1.textures_loaded) ∧
      (loadCalls env calls m w).1.map (List.map Texture.path)
        = calls.map (fun c => c.mat.bound c.type) := by
  induction calls with
  | nil => intro m w h; simpa [loadCalls, requested] using h
  | cons c cs ih =>
    intro m w h
    obtain ⟨hinv, hpaths⟩ := loadMaterialTextures_invariant env m w c.mat c.type c.typeName h
    obtain ⟨i1, i2, ⟨added2, i3⟩, i4, i5⟩ := ih _ _ hinv
    obtain ⟨_, _, _, added1, f4⟩ := loadMaterialTextures_frame env m w c.mat c.type c.typeName
    simp only [loadCalls]
    refine ⟨i1, ?_, ⟨added1 ++ added2, ?_⟩, ?_, ?_⟩
    · intro p
      rw [i2 p, hpaths p]
      simp only [requested, List.map_cons, List.flatten_cons, List.mem_append]
      tauto
    · rw [i3, f4, List.append_assoc]
    · intro slots hslots s hs
      rcases List.mem_cons.mp hslots with hsl | hsl
      · subst hsl
        rw [i3]
        exact List.mem_append_left _ (loadMaterialTextures_mem env m w c.mat c.type c.typeName s hs)
      · exact i4 slots hsl s hs
    · simp only [List.map_cons, i5, loadMaterialTextures_paths]

/-! ## Failed loads -/

/-- An index that does not fit 32 bits wraps: `*4294967296` is index 0, so over
a table of two entries entry 0 is read and handed to `TextureFromEmbedded`. -/
theorem TextureFromFile_wrapped_index :
    atoi ("*4294967296".data.drop 1) = 0 ∧
    (TextureFromFile smallEnv "*4294967296" "models" (some embeddedScene) emptyWorld).1 = 1 ∧
    (TextureFromFile smallEnv "*4294967296" "models" (some embeddedScene) emptyWorld).2.trace.take 3
      = [Event.call_TextureFromFile "*4294967296", Event.read_mTextures 0,
         Event.glGenTextures 1] := by
  decide

/-! ## `processMesh`: material textures -/

theorem loadMaterialTextures_nothing_bound (env : Env) (m : Model) (w : World) (mat : aiMaterial)
    (type : aiTextureType) (typeName : String) (h : mat.bound type = []) :
    loadMaterialTextures env m w mat type typeName = ([], m, w) := by
  simp [loadMaterialTextures, h, loadMaterialTextures.loop]

/-- C8: the texture list of the mesh `processMesh` builds is the concatenation
of what four consecutive `loadMaterialTextures` calls on the mesh's material
return: DIFFUSE as `texture_diffuse`, then SPECULAR as `texture_specular`, then
HEIGHT as `texture_normal`, then AMBIENT as `texture_height`; each of the four
sub-lists has one slot per identifier the material binds for that category, in
binding order. A material that binds nothing gives the mesh with its geometry
and an empty texture list, and changes neither `Model` nor world. A mesh is
built for every record that has normals or declares no vertex. -/
theorem processMesh_textures (env : Env) (m : Model) (w : World) (mesh : aiMesh)
    (scene : aiScene) :
    (∃ d s n h : List Texture × Model × World,
      d = loadMaterialTextures env m w (scene.mMaterials mesh.mMaterialIndex)
            aiTextureType_DIFFUSE "texture_diffuse" ∧
      s = loadMaterialTextures env d.2.1 d.2.2 (scene.mMaterials mesh.mMaterialIndex)
            aiTextureType_SPECULAR "texture_specular" ∧
      n = loadMaterialTextures env s.2.1 s.2.2 (scene.mMaterials mesh.mMaterialIndex)
            aiTextureType_HEIGHT "texture_normal" ∧
      h = loadMaterialTextures env n.2.1 n.2.2 (scene.mMaterials mesh.mMaterialIndex)
            aiTextureType_AMBIENT "texture_height" ∧
      (∀ r, processMesh env m w mesh scene = some r →
        r.1.textures = d.1 ++ s.1 ++ n.1 ++ h.1 ∧ r.2 = h.2) ∧
      d.1.map Texture.path = (scene.mMaterials mesh.mMaterialIndex).bound aiTextureType_DIFFUSE ∧
      s.1.map Texture.path = (scene.mMaterials mesh.mMaterialIndex).bound aiTextureType_SPECULAR ∧
      n.1.map Texture.path = (scene.mMaterials mesh.mMaterialIndex).bound aiTextureType_HEIGHT ∧
      h.1.map Texture.path = (scene.mMaterials mesh.mMaterialIndex).bound aiTextureType_AMBIENT) ∧
    ((∀ type, (scene.mMaterials mesh.mMaterialIndex).bound type = []) →
      ∀ r, processMesh env m w mesh scene = some r →
        r.1.textures = [] ∧
        processMesh.vertexLoop mesh (List.range mesh.mNumVertices) = some r.1.vertices ∧
        r.1.vertices.length = mesh.mNumVertices ∧
        r.1.indices = (mesh.mFaces.map aiFace.mIndices).flatten ∧
        r.2 = (m, w)) ∧
    (normalsReadable mesh → (processMesh env m w mesh scene).isSome = true) := by
  refine ⟨?_, ?_, processMesh_isSome env m w mesh scene⟩
  · refine ⟨_, _, _, _, rfl, rfl, rfl, rfl, ?_, ?_, ?_, ?_, ?_⟩
    · intro r hr
      obtain ⟨_, _, ht, h2⟩ := processMesh_some env m w mesh scene r hr
      rw [ht, h2]
      simp [processMesh.material]
    all_goals exact loadMaterialTextures_paths _ _ _ _ _ _
  · intro hbare r hr
    obtain ⟨hv, hi, ht, h2⟩ := processMesh_some env m w mesh scene r hr
    have hm : processMesh.material env m w mesh scene = ([], m, w) := by
      simp [processMesh.material, loadMaterialTextures_nothing_bound, hbare]
    rw [hm] at ht h2
    refine ⟨ht, hv, ?_, hi, h2⟩
    rw [vertexLoop_length mesh _ _ hv, List.length_range]

/-- C8, witness: a material that binds nothing, and the material that binds
`wall.png`, `roof.png` as diffuse and `wall.png` as specular. -/
theorem processMesh_textures_witness :
    (∀ type, (bareScene.mMaterials triangle.mMaterialIndex).bound type = []) ∧
    (processMesh smallEnv modelsModel emptyWorld triangle bareScene).isSome = true ∧
    (∀ r, processMesh smallEnv modelsModel emptyWorld triangle bareScene = some r →
      r.1.textures = [] ∧
      processMesh.vertexLoop triangle (List.range triangle.mNumVertices) = some r.1.vertices ∧
      r.1.vertices.length = triangle.mNumVertices ∧
      r.1.indices = (triangle.mFaces.map aiFace.mIndices).flatten ∧
      r.2 = (modelsModel, emptyWorld)) ∧
    (processMesh smallEnv modelsModel emptyWorld triangle wallScene).map (fun r => r.1.textures)
      = some [{ id := 1, type := "texture_diffuse", path := "wall.png" },
              { id := 2, type := "texture_diffuse", path := "roof.png" },
              { id := 1, type := "texture_diffuse", path := "wall.png" }] :=
  ⟨fun _ => rfl,
    (processMesh_textures smallEnv modelsModel emptyWorld triangle bareScene).2.2 (Or.inl rfl),
    (processMesh_textures smallEnv modelsModel emptyWorld triangle bareScene).2.1 (fun _ => rfl),
    by decide⟩

/-! ## `processNode`: the order of the walk -/

theorem meshLoop_append (env : Env) (scene : aiScene) (xs ys : List Nat) :
    ∀ (m : Model) (w : World),
      processNode.meshLoop env scene (xs ++ ys) m w
        = (processNode.meshLoop env scene xs m w).bind
            (fun r => processNode.meshLoop env scene ys r.1 r.2) := by
  induction xs with
  | nil => intro m w; rfl
  | cons x xs ih =>
    intro m w
    rw [List.cons_append, processNode.meshLoop, processNode.meshLoop]
    cases processMesh env m w (scene.mMeshes x) scene with
    | none => rfl
    | some r => exact ih _ _

mutual
theorem processNode_eq_meshLoop (env : Env) (scene : aiScene) :
    ∀ (node : aiNode) (m : Model) (w : World),
      processNode env scene node m w = processNode.meshLoop env scene (preorder node) m w
  | .mk mMeshes mChildren, m, w => by
    rw [processNode, preorder, meshLoop_append]
    cases processNode.meshLoop env scene mMeshes m w with
    | none => rfl
    | some r => exact childLoop_eq_meshLoop env scene mChildren r.1 r.2
theorem childLoop_eq_meshLoop (env : Env) (scene : aiScene) :
    ∀ (children : List aiNode) (m : Model) (w : World),
      processNode.childLoop env scene children m w
        = processNode.meshLoop env scene (preorderChildren children) m w
  | [], m, w => by rw [processNode.childLoop, preorderChildren]; rfl
  | c :: cs, m, w => by
    rw [processNode.childLoop, preorderChildren, meshLoop_append,
      processNode_eq_meshLoop env scene c]
    cases processNode.meshLoop env scene (preorder c) m w with
    | none => rfl
    | some r => exact childLoop_eq_meshLoop env scene cs r.1 r.2
end

mutual
theorem preorder_length_of_oneMeshEach :
    ∀ (node : aiNode), oneMeshEach node = true → (preorder node).length = nodeCount node
  | .mk mMeshes mChildren, h => by
    simp only [oneMeshEach, Bool.and_eq_true, decide_eq_true_eq] at h
    rw [preorder, nodeCount, List.length_append, h.1,
      preorderChildren_length_of_oneMeshEach mChildren h.2]
theorem preorderChildren_length_of_oneMeshEach :
    ∀ (children : List aiNode), oneMeshEachChildren children = true →
      (preorderChildren children).length = nodeCountChildren children
  | [], _ => by rw [preorderChildren, nodeCountChildren]; rfl
  | c :: cs, h => by
    simp only [oneMeshEachChildren, Bool.and_eq_true] at h
    rw [preorderChildren, nodeCountChildren, List.length_append,
      preorder_length_of_oneMeshEach c h.1, preorderChildren_length_of_oneMeshEach cs h.2]
end

theorem cacheGrows_trans {a b c : Model} (h1 : cacheGrows a b) (h2 : cacheGrows b c) :
    cacheGrows a c := by
  obtain ⟨a1, a2, a3, x, a4⟩ := h1
  obtain ⟨b1, b2, b3, y, b4⟩ := h2
  exact ⟨b1.trans a1, b2.trans a2, b3.trans a3, x ++ y, by rw [b4, a4, List.append_assoc]⟩

theorem loadMaterialTextures_cacheGrows (env : Env) (m : Model) (w : World) (mat : aiMaterial)
    (type : aiTextureType) (typeName : String) :
    cacheGrows m (loadMaterialTextures env m w mat type typeName).2.1 :=
  loadMaterialTextures_frame env m w mat type typeName

theorem material_cacheGrows (env : Env) (m : Model) (w : World) (mesh : aiMesh)
    (scene : aiScene) : cacheGrows m (processMesh.material env m w mesh scene).2.1 := by
  simp only [processMesh.material, ge_iff_le, Nat.zero_le, if_true]
  exact cacheGrows_trans (cacheGrows_trans (cacheGrows_trans
    (loadMaterialTextures_cacheGrows _ _ _ _ _ _) (loadMaterialTextures_cacheGrows _ _ _ _ _ _))
    (loadMaterialTextures_cacheGrows _ _ _ _ _ _)) (loadMaterialTextures_cacheGrows _ _ _ _ _ _)

theorem processMesh_cacheGrows (env : Env) (m : Model) (w : World) (mesh : aiMesh)
    (scene : aiScene) (r : Mesh × Model × World) (h : processMesh env m w mesh scene = some r) :
    cacheGrows m r.2.1 := by
  rw [(processMesh_some env m w mesh scene r h).2.2.2]
  exact material_cacheGrows env m w mesh scene

theorem processMesh_geometry (env : Env) (m : Model) (w : World) (mesh : aiMesh)
    (scene : aiScene) (r : Mesh × Model × World) (h : processMesh env m w mesh scene = some r) :
    recordGeometry mesh = some (geometry r.1) := by
  obtain ⟨hv, hi, _, _⟩ := processMesh_some env m w mesh scene r h
  simp [recordGeometry, geometry, hv, hi]

theorem meshLoop_meshes (env : Env) (scene : aiScene) (refs : List Nat) :
    ∀ (m : Model) (w : World) (r : Model × World),
      processNode.meshLoop env scene refs m w = some r →
      ∃ built, r.1.meshes = m.meshes ++ built ∧
        built.map (fun mesh => some (geometry mesh))
          = refs.map (fun i => recordGeometry (scene.mMeshes i)) := by
  induction refs with
  | nil =>
    intro m w r h
    simp only [processNode.meshLoop, Option.some.injEq] at h
    exact ⟨[], by simp [← h], rfl⟩
  | cons i rest ih =>
    intro m w r h
    rw [processNode.meshLoop] at h
    cases hp : processMesh env m w (scene.mMeshes i) scene with
    | none => simp [hp] at h
    | some p =>
      simp only [hp] at h
      obtain ⟨built, h1, h2⟩ := ih _ _ r h
      refine ⟨p.1 :: built, ?_, ?_⟩
      · rw [h1]
        simp [(processMesh_cacheGrows env m w (scene.mMeshes i) scene p hp).2.2.1]
      · simp only [List.map_cons, h2, processMesh_geometry env m w _ scene p hp]

theorem meshLoop_isSome (env : Env) (scene : aiScene) (refs : List Nat) :
    ∀ (m : Model) (w : World), (∀ i ∈ refs, normalsReadable (scene.mMeshes i)) →
      (processNode.meshLoop env scene refs m w).isSome = true := by
  induction refs with
  | nil => intro m w _; rfl
  | cons i rest ih =>
    intro m w h
    rw [processNode.meshLoop]
    obtain ⟨p, hp⟩ := Option.isSome_iff_exists.mp
      (processMesh_isSome env m w (scene.mMeshes i) scene (h i (List.mem_cons_self _ _)))
    simp only [hp]
    exact ih _ _ (fun j hj => h j (List.mem_cons_of_mem _ hj))

/-- C2: `processNode` on a node tree does what processing the mesh references of
the tree one by one in depth-first pre-order does (the references of a node in
stored order, then each child subtree in child order); the meshes it appends to
`Model::meshes` are the geometries of the referenced mesh records in that order;
for a tree in which every node owns exactly one mesh reference the number of
meshes appended is the number of nodes; and the walk completes whenever every
referenced record has normals or declares no vertex. -/
theorem processNode_preorder (env : Env) (scene : aiScene) (node : aiNode) (m : Model)
    (w : World) :
    processNode env scene node m w = processNode.meshLoop env scene (preorder node) m w ∧
    (∀ r, processNode env scene node m w = some r →
      ∃ built, r.1.meshes = m.meshes ++ built ∧
        built.map (fun mesh => some (geometry mesh))
          = (preorder node).map (fun i => recordGeometry (scene.mMeshes i)) ∧
        (oneMeshEach node = true → built.length = nodeCount node)) ∧
    ((∀ i ∈ preorder node, normalsReadable (scene.mMeshes i)) →
      (processNode env scene node m w).isSome = true) := by
  refine ⟨processNode_eq_meshLoop env scene node m w, ?_, ?_⟩
  · intro r hr
    rw [processNode_eq_meshLoop] at hr
    obtain ⟨built, h1, h2⟩ := meshLoop_meshes env scene (preorder node) m w r hr
    refine ⟨built, h1, h2, fun hone => ?_⟩
    have := congrArg List.length h2
    simp only [List.length_map] at this
    rw [this, preorder_length_of_oneMeshEach node hone]
  · intro h
    rw [processNode_eq_meshLoop]
    exact meshLoop_isSome env scene (preorder node) m w h

/-- C2, witness: the tree `3 (1 (4)) (2)` of four nodes with one mesh each, over a
scene whose mesh `i` has `i` vertices, gives four meshes of 3, 1, 4 and 2
vertices. -/
theorem processNode_preorder_witness :
    oneMeshEach fourNodes = true ∧ nodeCount fourNodes = 4 ∧
    processNode smallEnv numberedScene fourNodes modelsModel emptyWorld
      = processNode.meshLoop smallEnv numberedScene [3, 1, 4, 2] modelsModel emptyWorld ∧
    (processNode smallEnv numberedScene fourNodes modelsModel emptyWorld).isSome = true ∧
    (processNode smallEnv numberedScene fourNodes modelsModel emptyWorld).map
        (fun r => r.1.meshes.map (fun mesh => mesh.vertices.length)) = some [3, 1, 4, 2] :=
  ⟨by decide, by decide,
    (processNode_preorder smallEnv numberedScene fourNodes modelsModel emptyWorld).1,
    (processNode_preorder smallEnv numberedScene fourNodes modelsModel emptyWorld).2.2
      (fun _ _ => Or.inl rfl),
    by decide⟩

/-! ## What the walk keeps -/

theorem material_invariant (env : Env) (m : Model) (w : World) (mesh : aiMesh)
    (scene : aiScene) (h : cacheInvariant m w) :
    cacheInvariant (processMesh.material env m w mesh scene).2.1
      (processMesh.material env m w mesh scene).2.2 := by
  simp only [processMesh.material, ge_iff_le, Nat.zero_le, if_true]
  exact (loadMaterialTextures_invariant _ _ _ _ _ _
    (loadMaterialTextures_invariant _ _ _ _ _ _
      (loadMaterialTextures_invariant _ _ _ _ _ _
        (loadMaterialTextures_invariant _ _ _ _ _ _ h).1).1).1).1

theorem meshLoop_keeps (env : Env) (scene : aiScene) (refs : List Nat) :
    ∀ (m : Model) (w : World) (r : Model × World),
      processNode.meshLoop env scene refs m w = some r →
      r.1.scene = m.scene ∧ r.1.directory = m.directory ∧
      (cacheInvariant m w → cacheInvariant r.1 r.2) := by
  induction refs with
  | nil =>
    intro m w r h
    simp only [processNode.meshLoop, Option.some.injEq] at h
    subst h
    exact ⟨rfl, rfl, fun h => h⟩
  | cons i rest ih =>
    intro m w r h
    rw [processNode.meshLoop] at h
    cases hp : processMesh env m w (scene.mMeshes i) scene with
    | none => simp [hp] at h
    | some p =>
      simp only [hp] at h
      obtain ⟨h1, h2, h3⟩ := ih _ _ r h
      obtain ⟨g1, g2, _, _⟩ := processMesh_cacheGrows env m w (scene.mMeshes i) scene p hp
      refine ⟨h1.trans g1, h2.trans g2, fun hinv => h3 ?_⟩
      have h2' := (processMesh_some env m w (scene.mMeshes i) scene p hp).2.2.2
      have := material_invariant env m w (scene.mMeshes i) scene hinv
      rw [← h2'] at this
      exact this

/-- A `Model` constructed over a world without any `TextureFromFile` call ends
with the cache invariant: no path is cached twice, and `TextureFromFile` was
entered exactly once for each cached path and for no other identifier. -/
theorem Model_new_cacheInvariant (env : Env) (w : World) (path directory : String)
    (htrace : ∀ p, callCount p w.trace = 0) (r : Model × World)
    (hr : Model.new env w path directory = some r) : cacheInvariant r.1 r.2 := by
  have hinv : ∀ (m : Model), m.textures_loaded = [] → cacheInvariant m w := by
    intro m hm
    constructor
    · simp [hm]
    · intro p; simp [hm, htrace p]
  have hfail : ∀ (m : Model) (msg : String), m.textures_loaded = [] →
      cacheInvariant m (w.log (Event.cerr msg)) := by
    intro m msg hm
    constructor
    · simp [hm]
    · intro p; simp [hm, callCount_log, htrace p]
  unfold Model.new loadModel at hr
  split at hr
  · rw [← Option.some.inj hr]; exact hfail _ _ rfl
  · split at hr
    · rw [← Option.some.inj hr]; exact hfail _ _ rfl
    · split at hr
      · rw [← Option.some.inj hr]; exact hfail _ _ rfl
      · rw [processNode_eq_meshLoop] at hr
        exact (meshLoop_keeps env _ _ _ w r hr).2.2 (hinv _ rfl)

/-! ## The base directory -/

theorem lastIndexFrom_absent (c : Char) (s : List Char) (h : c ∉ s) :
    ∀ i, lastIndexFrom c s i = none := by
  induction s with
  | nil => intro i; rfl
  | cons x xs ih =>
    intro i
    have hx : ¬ x = c := fun e => h (e ▸ List.mem_cons_self _ _)
    have hxs : c ∉ xs := fun e => h (List.mem_cons_of_mem _ e)
    simp [lastIndexFrom, ih hxs, hx]

theorem lastIndexFrom_last (c : Char) (d f : List Char) (h : c ∉ f) :
    ∀ i, lastIndexFrom c (d ++ c :: f) i = some (i + d.length) := by
  induction d with
  | nil => intro i; simp [lastIndexFrom, lastIndexFrom_absent c f h]
  | cons x xs ih =>
    intro i
    have e : lastIndexFrom c (xs ++ c :: f) (i + 1) = some (i + (xs.length + 1)) := by
      rw [ih (i + 1), Nat.add_assoc, Nat.add_comm 1]
    rw [List.cons_append, lastIndexFrom, e, List.length_cons]

theorem substr_find_last_of (d f : String) (h : '/' ∉ f.data) :
    substr (d ++ "/" ++ f) 0 (find_last_of (d ++ "/" ++ f) '/') = d := by
  have hdata : (d ++ "/" ++ f).data = d.data ++ '/' :: f.data := by
    simp [String.data_append]
  unfold substr find_last_of
  rw [hdata, lastIndexFrom_last '/' d.data f.data h 0]
  simp

/-- For a path `d/f` whose last segment `f` has no `/` and whose import succeeds,
the base directory recorded by a load that completes is `d`. -/
theorem loadModel_directory_with_slash (env : Env) (m : Model) (w : World) (d f : String)
    (scene : aiScene) (root : aiNode) (h : '/' ∉ f.data)
    (hs : env.ReadFile (d ++ "/" ++ f) = some scene)
    (hflag : scene.mFlags &&& env.AI_SCENE_FLAGS_INCOMPLETE = 0)
    (hroot : scene.mRootNode = some root) (r : Model × World)
    (hr : loadModel env m w (d ++ "/" ++ f) = some r) : r.1.directory = d := by
  unfold loadModel at hr
  simp only [hs, hflag, hroot, ne_eq, not_true_eq_false, if_false] at hr
  rw [processNode_eq_meshLoop] at hr
  rw [(meshLoop_keeps env scene (preorder root) _ w r hr).2.1]
  exact substr_find_last_of d f h

/-- C9, at the failing input: for the path `model.obj`, which has no `/`, the
recorded base directory is the whole path `model.obj`, and the texture `t.png`
of the model is opened at `model.obj/t.png`. -/
theorem loadModel_directory_without_slash :
    (Model.new smallEnv emptyWorld "model.obj" "").map (fun r => r.1.directory)
      = some "model.obj" ∧
    (Model.new smallEnv emptyWorld "model.obj" "").map
        (fun r => r.2.trace.filter
          (fun e => match e with
            | Event.stbi_load _ => true
            | _ => false))
      = some [Event.stbi_load "model.obj/t.png"] := by
  decide

/-! ## Embedded references -/

/-- For an identifier that begins with the marker and whose index is below the
cast table size, `TextureFromFile` reads the table at that index and hands the
entry read to `TextureFromEmbedded`. -/
theorem TextureFromFile_embedded_valid (env : Env) (path directory : String) (sc : aiScene)
    (w : World) (hstar : path.data.head? = some '*')
    (hlt : atoi (path.data.drop 1) < castInt sc.mNumTextures) :
    TextureFromFile env path directory (some sc) w
      = TextureFromEmbedded env (sc.mTextures (atoi (path.data.drop 1)))
          ((w.log (Event.call_TextureFromFile path)).log
            (Event.read_mTextures (atoi (path.data.drop 1)))) := by
  unfold TextureFromFile
  simp only [hstar, hlt, if_true]

theorem mem_trace_log (e : Event) (w : World) (x : Event) :
    e ∈ (w.log x).trace ↔ e ∈ w.trace ∨ e = x := by
  simp [World.log]

theorem mem_trace_logs (e : Event) (w : World) (xs : List Event) :
    e ∈ (w.logs xs).trace ↔ e ∈ w.trace ∨ e ∈ xs := by
  simp [World.logs]

theorem mem_trace_genTexture (env : Env) (e : Event) (w : World) :
    e ∈ (genTexture env w).2.trace
      ↔ e ∈ w.trace ∨ e = Event.glGenTextures (env.glGenTextures w.generated) := by
  simp [genTexture]

/-- The function `TextureFromEmbedded` opens no file and does not read the table. -/
theorem TextureFromEmbedded_trace (env : Env) (aiTex : aiTexture) (w : World) (e : Event)
    (he : (∃ f, e = Event.stbi_load f) ∨ ∃ i, e = Event.read_mTextures i)
    (h : e ∈ (TextureFromEmbedded env aiTex w).2.trace) : e ∈ w.trace := by
  unfold TextureFromEmbedded at h
  by_cases h0 : aiTex.mHeight = 0
  · cases hd : env.stbi_load_from_memory aiTex <;>
      rcases he with ⟨f, rfl⟩ | ⟨i, rfl⟩ <;>
      simpa [h0, hd, mem_trace_log, mem_trace_logs, mem_trace_genTexture, uploadCalls] using h
  · rcases he with ⟨f, rfl⟩ | ⟨i, rfl⟩ <;>
      simpa [h0, mem_trace_log, mem_trace_logs, mem_trace_genTexture, uploadCalls] using h

/-- For an identifier that begins with the marker, `TextureFromFile` opens no
file, and every read of the table it makes is at an index below the cast table
size of a scene that is present. -/
theorem TextureFromFile_embedded_trace (env : Env) (path directory : String)
    (scene : Option aiScene) (w : World) (hstar : path.data.head? = some '*') :
    (∀ f, Event.stbi_load f ∈ (TextureFromFile env path directory scene w).2.trace →
      Event.stbi_load f ∈ w.trace) ∧
    (∀ i, Event.read_mTextures i ∈ (TextureFromFile env path directory scene w).2.trace →
      Event.read_mTextures i ∈ w.trace ∨
        ∃ sc, scene = some sc ∧ i = atoi (path.data.drop 1) ∧ i < castInt sc.mNumTextures) := by
  unfold TextureFromFile
  cases scene with
  | none =>
    simp only [hstar, if_true]
    constructor
    · intro f hf; simpa [mem_trace_log] using hf
    · intro i hi; left; simpa [mem_trace_log] using hi
  | some sc =>
    by_cases hlt : atoi (path.data.drop 1) < castInt sc.mNumTextures
    · simp only [hstar, hlt, if_true]
      constructor
      · intro f hf
        have := TextureFromEmbedded_trace env _ _ _ (Or.inl ⟨f, rfl⟩) hf
        simpa [mem_trace_log] using this
      · intro i hi
        have := TextureFromEmbedded_trace env _ _ _ (Or.inr ⟨i, rfl⟩) hi
        rcases (mem_trace_log _ _ _).mp this with h | h
        · left; simpa [mem_trace_log] using h
        · right
          have hi2 : i = atoi (path.data.drop 1) := by simpa using h
          exact ⟨sc, rfl, hi2, hi2 ▸ hlt⟩
    · simp only [hstar, hlt, if_true, if_false]
      constructor
      · intro f hf; simpa [mem_trace_log] using hf
      · intro i hi; left; simpa [mem_trace_log] using hi

/-- C5, at the failing input: for the identifier `*-1` and a table of one entry
the read `scene->mTextures[-1]` is made, and the entry read there is handed to
`TextureFromEmbedded` (a texture name is generated for it). -/
theorem TextureFromFile_negative_index :
    smallScene.mNumTextures = 1 ∧
    (TextureFromFile smallEnv "*-1" "models" (some smallScene) emptyWorld).2.trace.take 3
      = [Event.call_TextureFromFile "*-1", Event.read_mTextures (-1), Event.glGenTextures 1] ∧
    ¬ (0 ≤ (-1 : Int) ∧ (-1 : Int) < smallScene.mNumTextures) := by
  decide


/-! ## De-duplication from an empty cache -/

/-- C1: in a sequence of `loadMaterialTextures` calls that starts from an empty
cache and a trace without any `TextureFromFile` call, `TextureFromFile` is
entered exactly once for every identifier asked for and never for another one;
`textures_loaded` holds no path twice; every call returns one slot per
identifier it asks for, in order; every returned slot is an entry of
`textures_loaded`, so that two returned slots with the same path have the same
handle id, the one recorded when the identifier was first loaded. A `Model`
constructed over such a world ends in a state of that kind: no path cached
twice, one `TextureFromFile` call per cached path and none for another. -/
theorem texture_deduplication (env : Env) (m : Model) (w : World) (calls : List LoadCall)
    (hcache : m.textures_loaded = []) (htrace : ∀ p, callCount p w.trace = 0) :
    (∀ p, callCount p (loadCalls env calls m w).2.2.trace
        = if p ∈ requested calls then 1 else 0) ∧
    ((loadCalls env calls m w).2.1.textures_loaded.map Texture.path).Nodup ∧
    (loadCalls env calls m w).1.map (List.map Texture.path)
      = calls.map (fun c => c.mat.bound c.type) ∧
    (∀ s ∈ (loadCalls env calls m w).1.flatten,
      s ∈ (loadCalls env calls m w).2.1.textures_loaded) ∧
    (∀ s₁ ∈ (loadCalls env calls m w).1.flatten, ∀ s₂ ∈ (loadCalls env calls m w).1.flatten,
      s₁.path = s₂.path → s₁.id = s₂.id) ∧
    (∀ (path directory : String) (r : Model × World),
      Model.new env w path directory = some r → cacheInvariant r.1 r.2) := by
  have hinv : cacheInvariant m w := by
    constructor
    · simp [hcache]
    · intro p; simp [hcache, htrace p]
  obtain ⟨⟨hnodup, hcount⟩, hpaths, _, hmem, hout⟩ := loadCalls_spec env calls m w hinv
  have hmem2 : ∀ s ∈ (loadCalls env calls m w).1.flatten,
      s ∈ (loadCalls env calls m w).2.1.textures_loaded := by
    intro s hs
    obtain ⟨slots, hslots, hs2⟩ := List.mem_flatten.mp hs
    exact hmem slots hslots s hs2
  refine ⟨?_, hnodup, hout, hmem2, ?_,
    fun path directory r hr => Model_new_cacheInvariant env w path directory htrace r hr⟩
  · intro p
    rw [hcount p]
    have := hpaths p
    simp only [hcache, List.map_nil, List.not_mem_nil, false_or] at this
    by_cases hp : p ∈ requested calls
    · simp [hp, this.mpr hp]
    · have hn : p ∉ (loadCalls env calls m w).2.1.textures_loaded.map Texture.path :=
        fun hh => hp (this.mp hh)
      simp [hp, hn]
  · intro s₁ h₁ s₂ h₂ hp
    have := List.inj_on_of_nodup_map hnodup (hmem2 s₁ h₁) (hmem2 s₂ h₂) hp
    rw [this]

/-- C1, witness: `wall.png` asked for as diffuse and again as specular, and
`roof.png` once, from the empty cache. -/
theorem texture_deduplication_witness :
    modelsModel.textures_loaded = [] ∧ (∀ p, callCount p emptyWorld.trace = 0) ∧
    (∀ p, callCount p (loadCalls smallEnv wallCalls modelsModel emptyWorld).2.2.trace
        = if p ∈ requested wallCalls then 1 else 0) ∧
    (loadCalls smallEnv wallCalls modelsModel emptyWorld).1
      = [[{ id := 1, type := "texture_diffuse", path := "wall.png" },
          { id := 2, type := "texture_diffuse", path := "roof.png" }],
         [{ id := 1, type := "texture_diffuse", path := "wall.png" }]] :=
  ⟨rfl, fun _ => rfl,
    (texture_deduplication smallEnv modelsModel emptyWorld wallCalls rfl (fun _ => rfl)).1,
    by decide⟩

end VoxEngine
